import Mathlib

/-!
Verification of the AWS persistent-disk volume plugin
(`src/pkg/volume/aws_pd/aws_pd.go`).

The plugin's two orchestration methods `SetUpAt` and `TearDownAt` are embedded
as pure functions from an environment of syscall/remote-call outcomes to a
result together with the trace of external actions performed.  The path mapper
(`makeGlobalPDName`, `getPdNameFromGlobalMount`) is embedded on top of a
faithful model of the Go standard-library functions it uses
(`path.Clean`, `path.Join`, `filepath.Rel` on Unix, `strings.Replace`).
-/

set_option autoImplicit false

namespace AwsPd

/-- Error values observable by the plugin code.  `notExist` models an error
for which Go's `os.IsNotExist` returns true; `relError` models the error
returned by `filepath.Rel` when no relative path exists; `invalidMountPath`
models the `fmt.Errorf("Unexpected mount path: ...")` value built by
`getPdNameFromGlobalMount`; `ioErr` stands for any other injected failure. -/
inductive Err where
  | notExist : Err
  | relError (base targ : String) : Err
  | invalidMountPath (p : String) : Err
  | ioErr (tag : String) : Err
deriving DecidableEq, Repr

/-- External actions performed by `SetUpAt` / `TearDownAt`: mount-table
queries, mount syscalls, filesystem calls and Disk Manager (pdManager)
calls. -/
inductive Action where
  | isMountPoint (dir : String) : Action
  | attachAndMountDisk (pdName globalPath : String) : Action
  | mkdirAll (dir : String) : Action
  | mount (src dst fstype : String) (bind readOnly : Bool) : Action
  | unmount (dir : String) : Action
  | remove (dir : String) : Action
  | getMountRefs (dir : String) : Action
  | detachDisk (pdName : String) : Action
deriving DecidableEq, Repr

/-- The `awsPersistentDisk` struct fields that the embedded code reads.
`manager`, `mounter` and `plugin.host` are represented by the environment
and the `pluginDir` parameter instead of by fields. -/
structure awsPersistentDisk where
  volName : String
  podUID : String
  pdName : String
  fsType : String
  readOnly : Bool
deriving DecidableEq, Repr

/-! ### Model of the Go standard library path functions -/

/-- Split a character list at every occurrence of the separator.
`splitSlash l` is the list of path elements of `l`, models splitting a Go
string on every byte equal to the separator (never returns an empty list). -/
def splitSlash : List Char → List (List Char)
  | [] => [[]]
  | c :: rest =>
    let ss := splitSlash rest
    if c = '/' then [] :: ss else (c :: ss.headD []) :: ss.tail

/-- Join path elements with the separator (inverse of `splitSlash`). -/
def joinSlash : List (List Char) → List Char
  | [] => []
  | [s] => s
  | s :: rest => s ++ '/' :: joinSlash rest

/-- Does the path start with the separator? -/
def isRooted : List Char → Bool
  | c :: _ => c = '/'
  | [] => false

/-- Core of Go `path.Clean`: process the path elements left to right,
dropping empty and dot elements, resolving a dotdot element against the
last retained element when possible, keeping it only for relative paths.
Mirrors the lazybuf loop of Go `path.Clean`. -/
def cleanSegs (rooted : Bool) : List (List Char) → List (List Char) → List (List Char)
  | out, [] => out
  | out, s :: rest =>
    if s = [] ∨ s = ['.'] then cleanSegs rooted out rest
    else if s = ['.', '.'] then
      if out ≠ [] ∧ out.getLast? ≠ some ['.', '.'] then cleanSegs rooted out.dropLast rest
      else if rooted then cleanSegs rooted out rest
      else cleanSegs rooted (out ++ [['.', '.']]) rest
    else cleanSegs rooted (out ++ [s]) rest

/-- Models Go `path.Clean` on a character list. -/
def cleanL (p : List Char) : List Char :=
  if p = [] then ['.']
  else
    let rooted := isRooted p
    let out := cleanSegs rooted [] (splitSlash p)
    let r := (if rooted then ['/'] else []) ++ joinSlash out
    if r = [] then ['.'] else r

/-- Models Go `path.Clean`. -/
def pathClean (p : String) : String := String.mk (cleanL p.data)

/-- Models Go `path.Join`: drop empty elements, join the rest with the
separator and clean the result (empty result for all-empty input). -/
def pathJoin (elems : List String) : String :=
  let ne := elems.filter (fun e => e != "")
  if ne = [] then "" else String.mk (cleanL (joinSlash (ne.map String.data)))

/-- Drop the longest common prefix of two element lists; models the
first-differing-element scan of Go `filepath.Rel`. -/
def dropCommon : List (List Char) → List (List Char) → List (List Char) × List (List Char)
  | b :: bs, t :: ts => if b = t then dropCommon bs ts else (b :: bs, t :: ts)
  | bs, ts => (bs, ts)

/-- Path elements of a cleaned path as consumed by the `filepath.Rel`
comparison loop: the root and a bare separator contribute no elements
(for rooted paths the shared leading empty element is dropped, the
slashedness of the two sides having already been compared). -/
def relSegsL (p : List Char) : List (List Char) :=
  if p = [] then []
  else if p = ['/'] then []
  else if isRooted p then (splitSlash p).tail
  else splitSlash p

/-- Models Go `filepath.Rel` with the Unix separator and no volume names:
clean both paths, fail when exactly one is rooted, drop the common leading
elements, fail when the first remaining base element is a dotdot element,
otherwise go up once per remaining base element and then down the remaining
target elements. -/
def filepathRel (basepath targpath : String) : Except Err String :=
  let base := cleanL basepath.data
  let targ := cleanL targpath.data
  if targ = base then .ok "."
  else
    let base := if base = ['.'] then [] else base
    if isRooted base ≠ isRooted targ then .error (.relError basepath targpath)
    else
      let p := dropCommon (relSegsL base) (relSegsL targ)
      if p.1.headD [] = ['.', '.'] then .error (.relError basepath targpath)
      else if p.1 = [] then .ok (String.mk (joinSlash p.2))
      else .ok (String.mk (joinSlash (List.replicate p.1.length ['.', '.'] ++ p.2)))

/-- Models `strings.Replace(name, "://", "/", -1)` as used by
`makeGlobalPDName`: replace every (left-to-right, non-overlapping)
occurrence of the URI separator with a single path separator. -/
def replaceURISep : List Char → List Char
  | ':' :: '/' :: '/' :: rest => '/' :: replaceURISep rest
  | c :: rest => c :: replaceURISep rest
  | [] => []

/-- String form of `replaceURISep`. -/
def replaceURISepStr (s : String) : String := String.mk (replaceURISep s.data)

/-- Does `pat` occur as a contiguous subsequence of the second list?  Models
Go `strings.Contains`. -/
def containsSeq (pat : List Char) : List Char → Bool
  | [] => pat.isPrefixOf []
  | c :: rest => pat.isPrefixOf (c :: rest) || containsSeq pat rest

/-! ### The path mapper from the source -/

/-- The plugin name constant `awsPersistentDiskPluginName` is only used to
key `host.GetPluginDir`; the embedding takes the resulting plugin directory
(`pluginDir`) as a parameter directly. -/
def mountsDirName : String := "mounts"

/-- Models `makeGlobalPDName(host, devName)`: clean the URI separator out of
the device name and join it under `pluginDir/mounts`. -/
def makeGlobalPDName (pluginDir devName : String) : String :=
  pathJoin [pluginDir, mountsDirName, replaceURISepStr devName]

/-- Models `getPdNameFromGlobalMount(host, globalPath)`: compute the path of
`globalPath` relative to `pluginDir/mounts` (propagates the `filepath.Rel`
error), reject it when it contains `"../"` as a substring, then reverse the
URI-separator replacement for the one defined provider prefix: when the name
starts with `"aws/"` that first occurrence is rewritten to `"aws://"`
(the `strings.Replace` call sits under a `strings.HasPrefix(name, "aws/")`
guard, so the occurrence it replaces is the leading one). -/
def getPdNameFromGlobalMount (pluginDir globalPath : String) : Except Err String :=
  let basePath := pathJoin [pluginDir, mountsDirName]
  match filepathRel basePath globalPath with
  | .error e => .error e
  | .ok rel =>
    if containsSeq ['.', '.', '/'] rel.data then .error (.invalidMountPath globalPath)
    else
      let name := rel
      let name :=
        if ['a', 'w', 's', '/'].isPrefixOf name.data then
          String.mk ('a' :: 'w' :: 's' :: ':' :: '/' :: '/' :: name.data.drop 4)
        else name
      .ok name

/-! ### Environments and traces for the orchestrator methods -/

/-- Outcomes of the external calls a `SetUpAt` run can make, in call-site
order.  `mount.IsMountPoint` returns a pair of a boolean and an error, so
each query site is a `Bool × Option Err`; the three query sites can observe
different mount-table states and so are separate fields. -/
structure SetUpEnv where
  isMountPoint1 : Bool × Option Err
  attach : Option Err
  mkdirAll : Option Err
  bindMount : Option Err
  isMountPoint2 : Bool × Option Err
  unmount : Option Err
  isMountPoint3 : Bool × Option Err
  detach : Option Err

/-- Outcomes of the external calls a `TearDownAt` run can make, in call-site
order.  `remove` serves both `os.Remove` call sites (they are on mutually
exclusive paths). -/
structure TearDownEnv where
  isMountPoint1 : Bool × Option Err
  getMountRefs : Except Err (List String)
  unmount : Option Err
  detach : Option Err
  isMountPoint2 : Bool × Option Err
  remove : Option Err

/-- Result of a `TearDownAt` run: the returned error (`none` is Go `nil`),
the trace of external actions, and the final value of the mutable
`pd.pdName` field. -/
structure TearDownResult where
  result : Option Err
  trace : List Action
  finalPdName : String
deriving Repr

/-- Models `detachDiskLogError(pd)`: invoke `DetachDisk` and only log a
failure; the outcome is dropped and only the action remains. -/
def detachDiskLogError (pd : awsPersistentDisk) (detachResult : Option Err) : List Action :=
  match detachResult with
  | some _ => [Action.detachDisk pd.pdName]
  | none => [Action.detachDisk pd.pdName]

/-- Models `SetUpAt(dir)`: returns the Go error (`none` is `nil`) and the
action trace.  Mirrors the source line by line: a first mount query whose
error is ignored when `os.IsNotExist` holds, the idempotent short circuit,
attach, `os.MkdirAll` with best-effort detach on failure, the bind mount,
and the rollback sequence on bind-mount failure (every early return in the
rollback surfaces the original bind-mount error `err`). -/
def SetUpAt (pluginDir : String) (pd : awsPersistentDisk) (dir : String)
    (env : SetUpEnv) : Option Err × List Action :=
  let mountpoint := env.isMountPoint1.1
  let err := env.isMountPoint1.2
  let t0 := [Action.isMountPoint dir]
  if err.isSome ∧ err ≠ some Err.notExist then (err, t0)
  else if mountpoint then (none, t0)
  else
    let globalPDPath := makeGlobalPDName pluginDir pd.pdName
    let t1 := t0 ++ [Action.attachAndMountDisk pd.pdName globalPDPath]
    match env.attach with
    | some e => (some e, t1)
    | none =>
      let t2 := t1 ++ [Action.mkdirAll dir]
      match env.mkdirAll with
      | some e => (some e, t2 ++ detachDiskLogError pd env.detach)
      | none =>
        let t3 := t2 ++ [Action.mount globalPDPath dir "" true pd.readOnly]
        match env.bindMount with
        | none => (none, t3)
        | some e =>
          let mountpoint2 := env.isMountPoint2.1
          let mntErr2 := env.isMountPoint2.2
          let t4 := t3 ++ [Action.isMountPoint dir]
          match mntErr2 with
          | some _ => (some e, t4)
          | none =>
            if mountpoint2 then
              let t5 := t4 ++ [Action.unmount dir]
              match env.unmount with
              | some _ => (some e, t5)
              | none =>
                let mountpoint3 := env.isMountPoint3.1
                let mntErr3 := env.isMountPoint3.2
                let t6 := t5 ++ [Action.isMountPoint dir]
                match mntErr3 with
                | some _ => (some e, t6)
                | none =>
                  if mountpoint3 then (some e, t6)
                  else (some e, t6 ++ [Action.remove dir] ++ detachDiskLogError pd env.detach)
            else (some e, t4 ++ [Action.remove dir] ++ detachDiskLogError pd env.detach)

/-- The tail of `TearDownAt` after the unmount / conditional detach: the
mount re-check and conditional `os.Remove`.  On every path reaching this point
the Go variable `err` is `nil` (the last assignments to it were the successful
`IsMountPoint`, `GetMountRefs` or `getPdNameFromGlobalMount` calls), so the
`return err` in the failed re-check branch returns `nil`. -/
def tearDownFinish (pdName dir : String) (t : List Action) (env : TearDownEnv) :
    TearDownResult :=
  let mountpoint := env.isMountPoint2.1
  let mntErr := env.isMountPoint2.2
  let t' := t ++ [Action.isMountPoint dir]
  match mntErr with
  | some _ => ⟨none, t', pdName⟩
  | none =>
    if mountpoint then ⟨none, t', pdName⟩
    else
      match env.remove with
      | some e => ⟨some e, t' ++ [Action.remove dir], pdName⟩
      | none => ⟨none, t' ++ [Action.remove dir], pdName⟩

/-- Models `TearDownAt(dir)`: mount query (any error, `os.IsNotExist`
included, is returned), stale-directory removal when not a mount point,
`GetMountRefs` before the unmount, the unmount, recovery of `pd.pdName` from
the single remaining reference followed by `DetachDisk` when exactly one
reference was gathered, and the final re-check handled by
`tearDownFinish`. -/
def TearDownAt (pluginDir : String) (pd : awsPersistentDisk) (dir : String)
    (env : TearDownEnv) : TearDownResult :=
  let mountpoint := env.isMountPoint1.1
  let err0 := env.isMountPoint1.2
  let t0 := [Action.isMountPoint dir]
  match err0 with
  | some e => ⟨some e, t0, pd.pdName⟩
  | none =>
    if mountpoint then
      let t1 := t0 ++ [Action.getMountRefs dir]
      match env.getMountRefs with
      | .error e => ⟨some e, t1, pd.pdName⟩
      | .ok refs =>
        let t2 := t1 ++ [Action.unmount dir]
        match env.unmount with
        | some e => ⟨some e, t2, pd.pdName⟩
        | none =>
          if refs.length = 1 then
            match getPdNameFromGlobalMount pluginDir (refs.headD "") with
            | .error e => ⟨some e, t2, pd.pdName⟩
            | .ok newName =>
              let t3 := t2 ++ [Action.detachDisk newName]
              match env.detach with
              | some e => ⟨some e, t3, newName⟩
              | none => tearDownFinish newName dir t3 env
          else tearDownFinish pd.pdName dir t2 env
    else ⟨env.remove, t0 ++ [Action.remove dir], pd.pdName⟩

/-! ### Well-formedness predicates used in the statements -/

/-- A path element is good when it is nonempty and neither the dot nor the
dotdot element; `path.Clean` keeps a list of good elements unchanged. -/
def goodSeg (s : List Char) : Bool := s != [] && s != ['.'] && s != ['.', '.']

/-- A clean absolute path: rooted and, after the root, only good elements
(this excludes the bare root and any path with empty, dot or dotdot
elements or a trailing separator). -/
def cleanAbsPath (p : String) : Bool :=
  isRooted p.data && (splitSlash p.data).tail.all goodSeg

/-- A well-formed relative path: every element good (so it is nonempty and
has no leading or trailing separator, no empty element and no dot or dotdot
element). -/
def goodRelPath (s : String) : Bool := (splitSlash s.data).all goodSeg

/-- Does the string contain the URI separator `"://"`? -/
def containsColonSlashSlash (s : String) : Bool := containsSeq [':', '/', '/'] s.data

/-- Does the string contain `"../"` (the substring `getPdNameFromGlobalMount`
rejects)? -/
def containsDotDotSlash (s : String) : Bool := containsSeq ['.', '.', '/'] s.data

/-- Does the string start with `"aws/"` (the provider prefix whose
substitution `getPdNameFromGlobalMount` reverses)? -/
def startsWithAwsSlash (s : String) : Bool := ['a', 'w', 's', '/'].isPrefixOf s.data

/-! ### Lemmas about the path-library model -/

theorem splitSlash_ne_nil (l : List Char) : splitSlash l ≠ [] := by
  cases l with
  | nil => simp [splitSlash]
  | cons c rest =>
    simp only [splitSlash]
    split <;> simp

theorem splitSlash_append (a b : List Char) :
    splitSlash (a ++ '/' :: b) = splitSlash a ++ splitSlash b := by
  induction a with
  | nil => simp [splitSlash]
  | cons c a' ih =>
    rcases h : splitSlash a' with _ | ⟨s, ss⟩
    · exact absurd h (splitSlash_ne_nil a')
    · by_cases hc : c = '/'
      · subst hc
        simp [splitSlash, ih]
      · simp [splitSlash, hc, ih, h]

theorem joinSlash_append (A B : List (List Char)) (hA : A ≠ []) (hB : B ≠ []) :
    joinSlash (A ++ B) = joinSlash A ++ '/' :: joinSlash B := by
  induction A with
  | nil => exact absurd rfl hA
  | cons a A' ih =>
    rcases A' with _ | ⟨a2, A''⟩
    · rcases B with _ | ⟨b, B'⟩
      · exact absurd rfl hB
      · simp [joinSlash]
    · have := ih (by simp)
      rcases B with _ | ⟨b, B'⟩
      · exact absurd rfl hB
      · simp only [List.cons_append, joinSlash] at this ⊢
        simp [this]

theorem joinSlash_splitSlash (l : List Char) : joinSlash (splitSlash l) = l := by
  induction l with
  | nil => simp [splitSlash, joinSlash]
  | cons c rest ih =>
    rcases h : splitSlash rest with _ | ⟨s, ss⟩
    · exact absurd h (splitSlash_ne_nil rest)
    · rw [h] at ih
      by_cases hc : c = '/'
      · subst hc
        simp [splitSlash, h, joinSlash, ih]
      · rcases ss with _ | ⟨s2, ss'⟩
        · simp [splitSlash, hc, h, joinSlash] at ih ⊢
          exact ih
        · simp only [splitSlash, hc, if_false, h, List.headD_cons, List.tail_cons, joinSlash,
            List.cons_append] at ih ⊢
          rw [← ih]

theorem cleanSegs_all_good (segs : List (List Char)) :
    ∀ (out : List (List Char)) (r : Bool), segs.all goodSeg = true →
      cleanSegs r out segs = out ++ segs := by
  induction segs with
  | nil => intro out r _; simp [cleanSegs]
  | cons s rest ih =>
    intro out r h
    rw [List.all_cons, Bool.and_eq_true] at h
    obtain ⟨hs, hrest⟩ := h
    simp only [goodSeg, Bool.and_eq_true, bne_iff_ne] at hs
    obtain ⟨⟨h1, h2⟩, h3⟩ := hs
    simp only [cleanSegs]
    rw [if_neg (by simp [h1, h2]), if_neg (by simp [h3])]
    rw [ih (out ++ [s]) r hrest]
    simp

theorem dropCommon_append (B N : List (List Char)) :
    dropCommon B (B ++ N) = ([], N) := by
  induction B with
  | nil =>
    rcases N with _ | ⟨t, ts⟩ <;> simp [dropCommon]
  | cons b B' ih => simp [dropCommon, ih]

theorem replaceURISep_aws (l : List Char) :
    replaceURISep ('a' :: 'w' :: 's' :: ':' :: '/' :: '/' :: l) =
      'a' :: 'w' :: 's' :: '/' :: replaceURISep l := rfl

theorem replaceURISep_no_occ (l : List Char)
    (h : containsSeq [':', '/', '/'] l = false) : replaceURISep l = l := by
  induction l using replaceURISep.induct with
  | case1 rest ih =>
    exfalso
    simp [containsSeq, List.isPrefixOf] at h
  | case2 c rest hside ih =>
    have hrest : containsSeq [':', '/', '/'] rest = false := by
      simp only [containsSeq, Bool.or_eq_false_iff] at h
      exact h.2
    rw [replaceURISep.eq_def]
    split
    · rename_i rest1 heq
      exfalso
      injection heq with h1 h2
      exact hside rest1 h1 h2
    · rename_i c2 rest2 hnm heq
      injection heq with h1 h2
      subst h1
      subst h2
      rw [ih hrest]
    · rename_i heq
      exact (List.cons_ne_nil _ _ heq).elim
  | case3 => simp [replaceURISep]

theorem cleanL_rooted_good (d : List Char) (hd : (splitSlash d).all goodSeg = true) :
    cleanL ('/' :: d) = '/' :: d := by
  have h1 : isRooted ('/' :: d) = true := by simp [isRooted]
  have h2 : splitSlash ('/' :: d) = [] :: splitSlash d := by simp [splitSlash]
  have h3 : cleanSegs true [] ([] :: splitSlash d) = splitSlash d := by
    have : cleanSegs true [] ([] :: splitSlash d) = cleanSegs true [] (splitSlash d) := by
      simp [cleanSegs]
    rw [this, cleanSegs_all_good _ [] true hd, List.nil_append]
  simp [cleanL, h1, h2, h3, joinSlash_splitSlash]

theorem cleanL_rooted_append (d q : List Char)
    (hd : (splitSlash d).all goodSeg = true) (hq : (splitSlash q).all goodSeg = true) :
    cleanL (('/' :: d) ++ '/' :: q) = ('/' :: d) ++ '/' :: q := by
  have h : ('/' :: d) ++ '/' :: q = '/' :: (d ++ '/' :: q) := by simp
  rw [h]
  apply cleanL_rooted_good
  rw [splitSlash_append, List.all_append]
  simp [hd, hq]

theorem pathJoin_two (p q : String) (hp : p ≠ "") (hq : q ≠ "") :
    pathJoin [p, q] = String.mk (cleanL (p.data ++ '/' :: q.data)) := by
  have hbp : (p != "") = true := bne_iff_ne.mpr hp
  have hbq : (q != "") = true := bne_iff_ne.mpr hq
  simp [pathJoin, List.filter, hbp, hbq, joinSlash]

theorem pathJoin_three (p q r : String) (hp : p ≠ "") (hq : q ≠ "") (hr : r ≠ "") :
    pathJoin [p, q, r] = String.mk (cleanL (p.data ++ '/' :: (q.data ++ '/' :: r.data))) := by
  have hbp : (p != "") = true := bne_iff_ne.mpr hp
  have hbq : (q != "") = true := bne_iff_ne.mpr hq
  have hbr : (r != "") = true := bne_iff_ne.mpr hr
  simp [pathJoin, List.filter, hbp, hbq, hbr, joinSlash]

theorem filepathRel_append (b n : List Char)
    (hb : isRooted b = true) (hcb : cleanL b = b) (hbne : b ≠ ['/'])
    (hct : cleanL (b ++ '/' :: n) = b ++ '/' :: n) :
    filepathRel (String.mk b) (String.mk (b ++ '/' :: n)) = .ok (String.mk n) := by
  have hbnil : b ≠ [] := by
    intro h
    rw [h] at hb
    simp [isRooted] at hb
  have hne : b ++ '/' :: n ≠ b := by
    intro h
    have := congrArg List.length h
    simp at this
  have hrt : isRooted (b ++ '/' :: n) = true := by
    rcases b with _ | ⟨c, rest⟩
    · exact absurd rfl hbnil
    · simpa [isRooted] using hb
  have hbdot : b ≠ ['.'] := by
    intro h
    rw [h] at hb
    simp [isRooted] at hb
  have htne : b ++ '/' :: n ≠ [] := by
    rcases b with _ | ⟨c, rest⟩
    · exact absurd rfl hbnil
    · simp
  have htslash : b ++ '/' :: n ≠ ['/'] := by
    intro h
    have hlen := congrArg List.length h
    simp only [List.length_append, List.length_cons, List.length_nil] at hlen
    have hb0 : b.length = 0 := by omega
    exact hbnil (List.length_eq_zero.mp hb0)
  rcases hsb : splitSlash b with _ | ⟨s, ss⟩
  · exact absurd hsb (splitSlash_ne_nil b)
  · have hsegt : relSegsL (b ++ '/' :: n) = ss ++ splitSlash n := by
      rw [relSegsL, if_neg htne, if_neg htslash, if_pos hrt, splitSlash_append, hsb]
      simp
    have hsegb : relSegsL b = ss := by
      rw [relSegsL, if_neg hbnil, if_neg hbne, if_pos hb, hsb]
      rfl
    have e1 : (String.mk b).data = b := rfl
    have e2 : (String.mk (b ++ '/' :: n)).data = b ++ '/' :: n := rfl
    simp only [filepathRel, e1, e2, hcb, hct]
    rw [if_neg hne, if_neg hbdot, hb, hrt]
    rw [if_neg (by simp), hsegb, hsegt, dropCommon_append]
    simp [joinSlash_splitSlash]

theorem rel_of_join (pluginDir name : String)
    (hp : cleanAbsPath pluginDir = true) (hn : goodRelPath name = true) :
    filepathRel (pathJoin [pluginDir, mountsDirName])
      (pathJoin [pluginDir, mountsDirName, name]) = .ok name := by
  obtain ⟨pd⟩ := pluginDir
  obtain ⟨nd⟩ := name
  rw [cleanAbsPath, Bool.and_eq_true] at hp
  obtain ⟨hroot, htail⟩ := hp
  rcases pd with _ | ⟨c, d⟩
  · simp [isRooted] at hroot
  · have hc : c = '/' := by simpa [isRooted] using hroot
    subst hc
    have hd : (splitSlash d).all goodSeg = true := by
      have : splitSlash ('/' :: d) = [] :: splitSlash d := by simp [splitSlash]
      rw [String.data] at htail
      rw [this] at htail
      simpa using htail
    have hnd : (splitSlash nd).all goodSeg = true := by
      rw [goodRelPath] at hn
      exact hn
    have hpne : String.mk ('/' :: d) ≠ "" := by
      intro h
      have : ('/' :: d : List Char) = [] := congrArg String.data h
      simp at this
    have hmne : mountsDirName ≠ "" := by decide
    have hnne : String.mk nd ≠ "" := by
      intro h
      have hnil : nd = [] := congrArg String.data h
      rw [hnil] at hnd
      simp [splitSlash, goodSeg] at hnd
    have hmgood : (splitSlash ['m', 'o', 'u', 'n', 't', 's']).all goodSeg = true := by decide
    rw [pathJoin_two _ _ hpne hmne, pathJoin_three _ _ _ hpne hmne hnne]
    show filepathRel (String.mk (cleanL (('/' :: d) ++ '/' :: ['m', 'o', 'u', 'n', 't', 's'])))
      (String.mk (cleanL (('/' :: d) ++ '/' :: (['m', 'o', 'u', 'n', 't', 's'] ++ '/' :: nd)))) =
      Except.ok (String.mk nd)
    have hb : isRooted (('/' :: d) ++ '/' :: ['m', 'o', 'u', 'n', 't', 's']) = true := by
      simp [isRooted]
    have hcb : cleanL (('/' :: d) ++ '/' :: ['m', 'o', 'u', 'n', 't', 's']) =
        ('/' :: d) ++ '/' :: ['m', 'o', 'u', 'n', 't', 's'] :=
      cleanL_rooted_append d _ hd hmgood
    have hbne : (('/' :: d) ++ '/' :: ['m', 'o', 'u', 'n', 't', 's']) ≠ ['/'] := by
      intro h
      have hlen := congrArg List.length h
      simp only [List.length_append, List.length_cons, List.length_nil] at hlen
      omega
    have hct : cleanL ((('/' :: d) ++ '/' :: ['m', 'o', 'u', 'n', 't', 's']) ++ '/' :: nd) =
        (('/' :: d) ++ '/' :: ['m', 'o', 'u', 'n', 't', 's']) ++ '/' :: nd := by
      rw [show ((('/' :: d) ++ '/' :: ['m', 'o', 'u', 'n', 't', 's']) ++ '/' :: nd) =
        ('/' :: (d ++ '/' :: ['m', 'o', 'u', 'n', 't', 's'] ++ '/' :: nd)) from by simp]
      apply cleanL_rooted_good
      rw [show (d ++ '/' :: ['m', 'o', 'u', 'n', 't', 's'] ++ '/' :: nd) =
        (d ++ '/' :: (['m', 'o', 'u', 'n', 't', 's'] ++ '/' :: nd)) from by simp]
      rw [splitSlash_append, List.all_append, splitSlash_append, List.all_append]
      simp [hd, hnd, hmgood]
    rw [cleanL_rooted_append d _ hd hmgood]
    rw [show (('/' :: d) ++ '/' :: (['m', 'o', 'u', 'n', 't', 's'] ++ '/' :: nd)) =
      ((('/' :: d) ++ '/' :: ['m', 'o', 'u', 'n', 't', 's']) ++ '/' :: nd) from by simp]
    rw [hct]
    exact filepathRel_append _ nd hb hcb hbne hct

theorem getPd_roundtrip_aux (pluginDir name : String)
    (hp : cleanAbsPath pluginDir = true) (hn : goodRelPath name = true)
    (hnodd : containsDotDotSlash name = false) :
    getPdNameFromGlobalMount pluginDir (pathJoin [pluginDir, mountsDirName, name]) =
      .ok (if startsWithAwsSlash name then
            String.mk ('a' :: 'w' :: 's' :: ':' :: '/' :: '/' :: name.data.drop 4)
          else name) := by
  have hrel := rel_of_join pluginDir name hp hn
  rw [containsDotDotSlash] at hnodd
  simp [getPdNameFromGlobalMount, hrel, hnodd, startsWithAwsSlash]

/-! ### Helper lemmas about the orchestrator traces -/

theorem tearDownFinish_detach (pdName dir : String) (t : List Action) (env : TearDownEnv)
    (n : String) :
    (Action.detachDisk n ∈ (tearDownFinish pdName dir t env).trace) ↔
      Action.detachDisk n ∈ t := by
  obtain ⟨f1, f2, f3, f4, ⟨mp2, e2⟩, rem⟩ := env
  cases e2 <;> cases mp2 <;> cases rem <;> simp [tearDownFinish]

/-- Characterization of when `TearDownAt` invokes `DetachDisk`: the first
mount query succeeded reporting a mount point, `GetMountRefs` succeeded with
exactly one reference, the unmount succeeded, and the identifier was
successfully recovered from that reference — and the invoked identifier is
exactly the recovered one. -/
theorem detach_mem_iff (pluginDir : String) (pd : awsPersistentDisk) (dir : String)
    (env : TearDownEnv) (n : String) :
    Action.detachDisk n ∈ (TearDownAt pluginDir pd dir env).trace ↔
      (env.isMountPoint1 = (true, none) ∧
       ∃ refs, env.getMountRefs = Except.ok refs ∧ env.unmount = none ∧
         refs.length = 1 ∧
         getPdNameFromGlobalMount pluginDir (refs.headD "") = Except.ok n) := by
  obtain ⟨⟨mp1, e1⟩, gr, un, det, ⟨mp2, e2⟩, rem⟩ := env
  cases e1 with
  | some e => simp [TearDownAt]
  | none =>
    cases mp1 with
    | false => simp [TearDownAt]
    | true =>
      cases gr with
      | error e => simp [TearDownAt]
      | ok refs =>
        cases un with
        | some e => simp [TearDownAt]
        | none =>
          by_cases hl : refs.length = 1
          · rcases hr : getPdNameFromGlobalMount pluginDir (refs.headD "") with e | m
            all_goals rw [List.headD_eq_head?] at hr
            · simp [TearDownAt, hl, hr]
            · cases det with
              | some e2' => simp [TearDownAt, hl, hr, eq_comm]
              | none =>
                cases e2 <;> cases mp2 <;> cases rem <;>
                  simp [TearDownAt, tearDownFinish, hl, hr, eq_comm]
          · cases e2 <;> cases mp2 <;> cases rem <;>
              simp [TearDownAt, tearDownFinish, hl]

/-! ### Claim theorems -/

/-- C1: For a teardown where the initial query reports a mount point, the
reference enumeration was gathered successfully and the unmount succeeded
(and, when a single reference remains, the identifier recovery from it
succeeds), `DetachDisk` is invoked iff the gathered enumeration has length
exactly one; moreover, whatever the other call outcomes, whenever the
gathered enumeration has length other than one `DetachDisk` is never
invoked in that call. -/
theorem C1_detach_iff_single_ref (pluginDir : String) (pd : awsPersistentDisk)
    (dir : String) (env : TearDownEnv) (refs : List String)
    (h1 : env.isMountPoint1 = (true, none))
    (h2 : env.getMountRefs = Except.ok refs)
    (h3 : env.unmount = none)
    (h4 : refs.length = 1 →
      ∃ m, getPdNameFromGlobalMount pluginDir (refs.headD "") = Except.ok m) :
    ((∃ n, Action.detachDisk n ∈ (TearDownAt pluginDir pd dir env).trace) ↔
      refs.length = 1)
    ∧ (∀ (env2 : TearDownEnv) (refs2 : List String) (n : String),
        env2.getMountRefs = Except.ok refs2 → refs2.length ≠ 1 →
        Action.detachDisk n ∉ (TearDownAt pluginDir pd dir env2).trace) := by
  constructor
  · constructor
    · rintro ⟨n, hn⟩
      obtain ⟨-, refs', hr', -, hlen, -⟩ := (detach_mem_iff pluginDir pd dir env n).mp hn
      rw [h2] at hr'
      injection hr' with h
      exact h ▸ hlen
    · intro hlen
      obtain ⟨m, hm⟩ := h4 hlen
      exact ⟨m, (detach_mem_iff pluginDir pd dir env m).mpr ⟨h1, refs, h2, h3, hlen, hm⟩⟩
  · intro env2 refs2 n h2' hne hmem
    obtain ⟨-, refs', hr', -, hlen, -⟩ := (detach_mem_iff pluginDir pd dir env2 n).mp hmem
    rw [h2'] at hr'
    injection hr' with h
    exact hne (h ▸ hlen)

/-- Witness for C1 at a concrete teardown: sole reference
`/pl/mounts/aws/z/v1`, successful unmount, cleaner-constructed instance
(empty `pdName`); a detach is invoked. -/
theorem C1_detach_iff_single_ref_witness :
    ∃ n, Action.detachDisk n ∈
      (TearDownAt "/pl" ⟨"v", "p", "", "", false⟩ "/d"
        ⟨(true, none), Except.ok ["/pl/mounts/aws/z/v1"], none, none,
          (false, none), none⟩).trace :=
  ((C1_detach_iff_single_ref "/pl" ⟨"v", "p", "", "", false⟩ "/d"
    ⟨(true, none), Except.ok ["/pl/mounts/aws/z/v1"], none, none, (false, none), none⟩
    ["/pl/mounts/aws/z/v1"] rfl rfl rfl
    (fun _ => ⟨"aws://z/v1", rfl⟩)).1).mpr rfl

/-- C6: A teardown whose initial query reports no mount point (and no
error) performs exactly the query and the directory removal: it returns
success when the removal succeeds, with no Disk Manager call and no
unmount. -/
theorem C6_teardown_stale_dir (pluginDir : String) (pd : awsPersistentDisk)
    (dir : String) (env : TearDownEnv)
    (h1 : env.isMountPoint1 = (false, none)) (h2 : env.remove = none) :
    TearDownAt pluginDir pd dir env =
      ⟨none, [Action.isMountPoint dir, Action.remove dir], pd.pdName⟩ := by
  obtain ⟨⟨mp1, e1⟩, gr, un, det, mp2e, rem⟩ := env
  injection h1 with ha hb
  subst ha
  subst hb
  subst h2
  simp [TearDownAt]

/-- Witness for C6 at a concrete stale-directory teardown. -/
theorem C6_teardown_stale_dir_witness :
    TearDownAt "/pl" ⟨"v", "p", "pdn", "", false⟩ "/d"
      ⟨(false, none), Except.ok [], none, none, (false, none), none⟩ =
      ⟨none, [Action.isMountPoint "/d", Action.remove "/d"], "pdn"⟩ :=
  C6_teardown_stale_dir "/pl" ⟨"v", "p", "pdn", "", false⟩ "/d"
    ⟨(false, none), Except.ok [], none, none, (false, none), none⟩ rfl rfl

/-- C8: Exhibit of the re-check bug.  In this run the final mount-status
re-check fails with a genuine I/O error, yet `TearDownAt` returns success:
the failed-re-check branch executes `return err` and the function-scoped
`err` is `nil` on every path reaching the re-check, so the claimed non-nil
error is not returned. -/
theorem C8_recheck_error_swallowed :
    (TearDownAt "/plugin" ⟨"vol", "pod1", "aws://z/v1", "", false⟩ "/pods/p1/v"
      ⟨(true, none), Except.ok ["/pods/p1/v", "/plugin/mounts/aws/z/v1"], none, none,
        (false, some (Err.ioErr "stat failure")), none⟩) =
      ⟨none, [Action.isMountPoint "/pods/p1/v", Action.getMountRefs "/pods/p1/v",
        Action.unmount "/pods/p1/v", Action.isMountPoint "/pods/p1/v"], "aws://z/v1"⟩ := rfl

/-- C9: Whenever `TearDownAt` invokes `DetachDisk`, the invoked identifier
is exactly the one recovered by the reverse path mapping from the sole
gathered mount reference (so the field is populated even for an instance
constructed without it); and when that recovery fails, `TearDownAt` returns
the recovery error and `DetachDisk` is not invoked. -/
theorem C9_pdName_recovered_before_detach (pluginDir : String)
    (pd : awsPersistentDisk) (dir : String) (env : TearDownEnv) :
    (∀ n, Action.detachDisk n ∈ (TearDownAt pluginDir pd dir env).trace →
      ∃ refs, env.getMountRefs = Except.ok refs ∧ refs.length = 1 ∧
        getPdNameFromGlobalMount pluginDir (refs.headD "") = Except.ok n)
    ∧ (∀ e refs, env.isMountPoint1 = (true, none) →
        env.getMountRefs = Except.ok refs → env.unmount = none →
        refs.length = 1 →
        getPdNameFromGlobalMount pluginDir (refs.headD "") = Except.error e →
        (TearDownAt pluginDir pd dir env).result = some e ∧
          ∀ n, Action.detachDisk n ∉ (TearDownAt pluginDir pd dir env).trace) := by
  constructor
  · intro n hn
    obtain ⟨-, refs, hr, -, hlen, hrec⟩ := (detach_mem_iff pluginDir pd dir env n).mp hn
    exact ⟨refs, hr, hlen, hrec⟩
  · intro e refs h1 h2 h3 hlen herr
    constructor
    · obtain ⟨⟨mp1, e1⟩, gr, un, det, mp2e, rem⟩ := env
      injection h1 with ha hb
      subst ha
      subst hb
      subst h3
      simp only at h2
      subst h2
      rw [List.headD_eq_head?] at herr
      simp [TearDownAt, hlen, herr]
    · intro n hn
      obtain ⟨-, refs', hr', -, -, hrec'⟩ := (detach_mem_iff pluginDir pd dir env n).mp hn
      rw [h2] at hr'
      injection hr' with h
      rw [← h] at hrec'
      rw [herr] at hrec'
      exact Except.noConfusion hrec'

/-- Witness for C9 at the same concrete teardown as C1's witness: the
detach action carries the recovered identifier. -/
theorem C9_pdName_recovered_before_detach_witness :
    ∃ refs,
      (⟨(true, none), Except.ok ["/pl/mounts/aws/z/v1"], none, none,
        (false, none), none⟩ : TearDownEnv).getMountRefs = Except.ok refs ∧
      refs.length = 1 ∧
      getPdNameFromGlobalMount "/pl" (refs.headD "") = Except.ok "aws://z/v1" :=
  (C9_pdName_recovered_before_detach "/pl" ⟨"v", "p", "", "", false⟩ "/d"
    ⟨(true, none), Except.ok ["/pl/mounts/aws/z/v1"], none, none,
      (false, none), none⟩).1 "aws://z/v1" (by decide)

/-- C10: A teardown whose initial mount query fails with any error — the
does-not-exist error included — returns that error with no directory
removal, no unmount and no Disk Manager call; unlike `SetUpAt`, there is no
does-not-exist exemption. -/
theorem C10_teardown_first_query_error (pluginDir : String)
    (pd : awsPersistentDisk) (dir : String) (env : TearDownEnv)
    (b : Bool) (e : Err) (h : env.isMountPoint1 = (b, some e)) :
    TearDownAt pluginDir pd dir env = ⟨some e, [Action.isMountPoint dir], pd.pdName⟩ := by
  obtain ⟨⟨mp1, e1⟩, gr, un, det, mp2e, rem⟩ := env
  injection h with ha hb
  subst ha
  subst hb
  simp [TearDownAt]

/-- Witness for C10 with the does-not-exist error itself. -/
theorem C10_teardown_first_query_error_witness :
    TearDownAt "/pl" ⟨"v", "p", "pdn", "", false⟩ "/d"
      ⟨(false, some Err.notExist), Except.ok [], none, none, (false, none), none⟩ =
      ⟨some Err.notExist, [Action.isMountPoint "/d"], "pdn"⟩ :=
  C10_teardown_first_query_error "/pl" ⟨"v", "p", "pdn", "", false⟩ "/d"
    ⟨(false, some Err.notExist), Except.ok [], none, none, (false, none), none⟩
    false Err.notExist rfl

/-- C4: A setup whose initial query reports an existing mount point returns
success immediately having performed only that query (no attach, no mount
syscall); and a setup whose initial query fails with the does-not-exist
error behaves exactly as if the query had reported "not mounted" with no
error, whatever the reported boolean. -/
theorem C4_setup_idempotent_short_circuit (pluginDir : String)
    (pd : awsPersistentDisk) (dir : String) (env : SetUpEnv) :
    (env.isMountPoint1 = (true, none) →
      SetUpAt pluginDir pd dir env = (none, [Action.isMountPoint dir]))
    ∧ (∀ b, env.isMountPoint1 = (b, some Err.notExist) →
        SetUpAt pluginDir pd dir env =
          SetUpAt pluginDir pd dir { env with isMountPoint1 := (b, none) }) := by
  obtain ⟨⟨mp1, e1⟩, att, mkd, bnd, mp2e, unm, mp3e, det⟩ := env
  constructor
  · intro h
    injection h with ha hb
    subst ha
    subst hb
    simp [SetUpAt]
  · intro b h
    injection h with ha hb
    subst ha
    subst hb
    cases mp1 <;> simp [SetUpAt]

/-- Witness for C4 at a concrete already-mounted setup. -/
theorem C4_setup_idempotent_short_circuit_witness :
    SetUpAt "/pl" ⟨"v", "p", "aws://z/v1", "", false⟩ "/d"
      ⟨(true, none), none, none, none, (false, none), none, (false, none), none⟩ =
      (none, [Action.isMountPoint "/d"]) :=
  (C4_setup_idempotent_short_circuit "/pl" ⟨"v", "p", "aws://z/v1", "", false⟩ "/d"
    ⟨(true, none), none, none, none, (false, none), none, (false, none), none⟩).1 rfl

/-- C5: When the attach and the directory creation succeed but the bind
mount fails and the re-check reports the target mounted, the call unmounts
the target and — when the target is then observed unmounted — removes the
directory, attempts the best-effort detach and returns the original
bind-mount error; when the target is still observed mounted after the
unmount, the call returns the original bind-mount error without removing
the directory. -/
theorem C5_bind_mount_rollback (pluginDir : String) (pd : awsPersistentDisk)
    (dir : String) (env : SetUpEnv) (e : Err)
    (h1 : env.isMountPoint1 = (false, none))
    (h2 : env.attach = none) (h3 : env.mkdirAll = none)
    (h4 : env.bindMount = some e)
    (h5 : env.isMountPoint2 = (true, none))
    (h6 : env.unmount = none) :
    (env.isMountPoint3 = (false, none) →
      (SetUpAt pluginDir pd dir env).1 = some e ∧
      Action.unmount dir ∈ (SetUpAt pluginDir pd dir env).2 ∧
      Action.remove dir ∈ (SetUpAt pluginDir pd dir env).2 ∧
      Action.detachDisk pd.pdName ∈ (SetUpAt pluginDir pd dir env).2)
    ∧ (env.isMountPoint3 = (true, none) →
      (SetUpAt pluginDir pd dir env).1 = some e ∧
      Action.remove dir ∉ (SetUpAt pluginDir pd dir env).2) := by
  obtain ⟨⟨mp1, e1⟩, att, mkd, bnd, ⟨mp2, e2⟩, unm, ⟨mp3, e3⟩, det⟩ := env
  injection h1 with ha hb
  subst ha
  subst hb
  injection h5 with hc hd
  subst hc
  subst hd
  simp only at h2 h3 h4 h6
  subst h2
  subst h3
  subst h4
  subst h6
  constructor
  · intro h7
    injection h7 with he hf
    subst he
    subst hf
    cases det <;> simp [SetUpAt, detachDiskLogError]
  · intro h7
    injection h7 with he hf
    subst he
    subst hf
    cases det <;> simp [SetUpAt, detachDiskLogError]

/-- Witness for C5 at a concrete failed bind mount with successful
rollback. -/
theorem C5_bind_mount_rollback_witness :
    (SetUpAt "/pl" ⟨"v", "p", "aws://z/v1", "", false⟩ "/d"
      ⟨(false, none), none, none, some (Err.ioErr "bind failed"), (true, none), none,
        (false, none), none⟩).1 = some (Err.ioErr "bind failed") ∧
    Action.unmount "/d" ∈ (SetUpAt "/pl" ⟨"v", "p", "aws://z/v1", "", false⟩ "/d"
      ⟨(false, none), none, none, some (Err.ioErr "bind failed"), (true, none), none,
        (false, none), none⟩).2 ∧
    Action.remove "/d" ∈ (SetUpAt "/pl" ⟨"v", "p", "aws://z/v1", "", false⟩ "/d"
      ⟨(false, none), none, none, some (Err.ioErr "bind failed"), (true, none), none,
        (false, none), none⟩).2 ∧
    Action.detachDisk "aws://z/v1" ∈ (SetUpAt "/pl" ⟨"v", "p", "aws://z/v1", "", false⟩ "/d"
      ⟨(false, none), none, none, some (Err.ioErr "bind failed"), (true, none), none,
        (false, none), none⟩).2 :=
  (C5_bind_mount_rollback "/pl" ⟨"v", "p", "aws://z/v1", "", false⟩ "/d"
    ⟨(false, none), none, none, some (Err.ioErr "bind failed"), (true, none), none,
      (false, none), none⟩ (Err.ioErr "bind failed")
    rfl rfl rfl rfl rfl rfl).1 rfl

/-- C7: When the attach succeeds but the directory creation fails, the call
returns the directory-creation error — whatever the outcome of the
best-effort detach, which is attempted (its action is in the trace) but
whose failure never replaces the returned error — and no mount syscall is
performed. -/
theorem C7_mkdir_failure_returns_mkdir_error (pluginDir : String)
    (pd : awsPersistentDisk) (dir : String) (env : SetUpEnv) (e : Err)
    (h1 : env.isMountPoint1 = (false, none))
    (h2 : env.attach = none)
    (h3 : env.mkdirAll = some e) :
    (SetUpAt pluginDir pd dir env).1 = some e ∧
    Action.detachDisk pd.pdName ∈ (SetUpAt pluginDir pd dir env).2 ∧
    ∀ s t fs bnd ro, Action.mount s t fs bnd ro ∉ (SetUpAt pluginDir pd dir env).2 := by
  obtain ⟨⟨mp1, e1⟩, att, mkd, bnd, mp2e, unm, mp3e, det⟩ := env
  injection h1 with ha hb
  subst ha
  subst hb
  simp only at h2 h3
  subst h2
  subst h3
  cases det <;> simp [SetUpAt, detachDiskLogError]

/-- Witness for C7 at a concrete failed directory creation whose
best-effort detach also fails: the returned error is still the
directory-creation error. -/
theorem C7_mkdir_failure_returns_mkdir_error_witness :
    (SetUpAt "/pl" ⟨"v", "p", "aws://z/v1", "", false⟩ "/d"
      ⟨(false, none), none, some (Err.ioErr "mkdir failed"), none, (false, none), none,
        (false, none), some (Err.ioErr "detach failed")⟩).1 =
      some (Err.ioErr "mkdir failed") ∧
    Action.detachDisk "aws://z/v1" ∈ (SetUpAt "/pl" ⟨"v", "p", "aws://z/v1", "", false⟩ "/d"
      ⟨(false, none), none, some (Err.ioErr "mkdir failed"), none, (false, none), none,
        (false, none), some (Err.ioErr "detach failed")⟩).2 ∧
    ∀ s t fs bnd ro, Action.mount s t fs bnd ro ∉
      (SetUpAt "/pl" ⟨"v", "p", "aws://z/v1", "", false⟩ "/d"
        ⟨(false, none), none, some (Err.ioErr "mkdir failed"), none, (false, none), none,
          (false, none), some (Err.ioErr "detach failed")⟩).2 :=
  C7_mkdir_failure_returns_mkdir_error "/pl" ⟨"v", "p", "aws://z/v1", "", false⟩ "/d"
    ⟨(false, none), none, some (Err.ioErr "mkdir failed"), none, (false, none), none,
      (false, none), some (Err.ioErr "detach failed")⟩ (Err.ioErr "mkdir failed")
    rfl rfl rfl

/-- C2 counterexample: the identifier `gce://d` contains no parent-traversal
segment after substitution, yet the reverse mapping applied to the forward
mapping yields `gce/d`, not `gce://d`: the reverse mapping only restores the
`aws://` prefix, so the mappings are not inverses on all traversal-free
identifiers. -/
theorem C2_roundtrip_counterexample :
    getPdNameFromGlobalMount "/plugin" (makeGlobalPDName "/plugin" "gce://d") =
      Except.ok "gce/d"
    ∧ ("gce/d" : String) ≠ "gce://d"
    ∧ containsDotDotSlash (replaceURISepStr "gce://d") = false :=
  ⟨rfl, by decide, by decide⟩

/-- C2 (amended): the round trip
`getPdNameFromGlobalMount (makeGlobalPDName id) = id` holds whenever the
plugin root is a clean absolute path, the substituted identifier is a
well-formed relative path containing no `"../"` substring, and the
identifier either has the form `aws://r` with no further URI separator in
`r`, or contains no URI separator at all and does not start with `aws/`. -/
theorem C2_roundtrip_amended (pluginDir id : String)
    (hroot : cleanAbsPath pluginDir = true)
    (hgood : goodRelPath (replaceURISepStr id) = true)
    (hnodd : containsDotDotSlash (replaceURISepStr id) = false)
    (hcase : (∃ r : String, id = "aws://" ++ r ∧ containsColonSlashSlash r = false)
           ∨ (containsColonSlashSlash id = false ∧ startsWithAwsSlash id = false)) :
    getPdNameFromGlobalMount pluginDir (makeGlobalPDName pluginDir id) =
      Except.ok id := by
  have key := getPd_roundtrip_aux pluginDir (replaceURISepStr id) hroot hgood hnodd
  rw [makeGlobalPDName, key]
  rcases hcase with ⟨r, hid, hnor⟩ | ⟨hnoc, hnopre⟩
  · subst hid
    rw [containsColonSlashSlash] at hnor
    have hdata : (replaceURISepStr ("aws://" ++ r)).data =
        'a' :: 'w' :: 's' :: '/' :: r.data := by
      show replaceURISep (("aws://" ++ r).data) = _
      rw [String.data_append]
      show replaceURISep ('a' :: 'w' :: 's' :: ':' :: '/' :: '/' :: r.data) = _
      rw [replaceURISep_aws, replaceURISep_no_occ r.data hnor]
    rw [if_pos (by rw [startsWithAwsSlash, hdata]; simp [List.isPrefixOf])]
    rw [hdata]
    show Except.ok (String.mk ('a' :: 'w' :: 's' :: ':' :: '/' :: '/' :: r.data)) = _
    rw [show ("aws://" ++ r : String) = String.mk ("aws://".data ++ r.data) from
      String.ext (String.data_append "aws://" r)]
    rfl
  · rw [containsColonSlashSlash] at hnoc
    have hname : replaceURISepStr id = id := by
      show String.mk (replaceURISep id.data) = id
      rw [replaceURISep_no_occ id.data hnoc]
    rw [hname, if_neg (by rw [hnopre]; exact Bool.false_ne_true)]

/-- Witness for C2 (amended) at the spec's own round-trip example. -/
theorem C2_roundtrip_amended_witness :
    getPdNameFromGlobalMount "/plugin"
      (makeGlobalPDName "/plugin" "aws://us-east-1a/vol-0123456789abcdef0") =
      Except.ok "aws://us-east-1a/vol-0123456789abcdef0" :=
  C2_roundtrip_amended "/plugin" "aws://us-east-1a/vol-0123456789abcdef0"
    (by decide) (by decide) (by decide)
    (Or.inl ⟨"us-east-1a/vol-0123456789abcdef0", by decide, by decide⟩)

/-- C3 counterexample: the global path `/plugin` (the parent of the mounts
root) has relative path `..` with respect to `/plugin/mounts` — it escapes
the root — yet `getPdNameFromGlobalMount` returns it as the identifier
`..` instead of failing: the `strings.Contains(rel, "../")` guard misses a
relative path that is exactly `..`. -/
theorem C3_dotdot_escape_counterexample :
    filepathRel (pathJoin ["/plugin", mountsDirName]) "/plugin" = Except.ok ".."
    ∧ getPdNameFromGlobalMount "/plugin" "/plugin" = Except.ok ".." :=
  ⟨rfl, rfl⟩

/-- C3 (amended): `getPdNameFromGlobalMount` propagates the error when the
relative path cannot be computed, and fails with the invalid-mount-path
error — returning no identifier — whenever the computed relative path
contains `"../"` as a substring; only a relative path that is exactly `..`
evades the guard. -/
theorem C3_invalid_path_amended (pluginDir globalPath : String) :
    (∀ e, filepathRel (pathJoin [pluginDir, mountsDirName]) globalPath = Except.error e →
      getPdNameFromGlobalMount pluginDir globalPath = Except.error e)
    ∧ (∀ rel, filepathRel (pathJoin [pluginDir, mountsDirName]) globalPath = Except.ok rel →
        containsDotDotSlash rel = true →
        getPdNameFromGlobalMount pluginDir globalPath =
          Except.error (Err.invalidMountPath globalPath)) := by
  constructor
  · intro e he
    simp [getPdNameFromGlobalMount, he]
  · intro rel hrel hdd
    rw [containsDotDotSlash] at hdd
    simp [getPdNameFromGlobalMount, hrel, hdd]

/-- Witness for C3 (amended) at a concrete escaping path containing
`"../"`. -/
theorem C3_invalid_path_amended_witness :
    getPdNameFromGlobalMount "/plugin" "/plugin/mounts/../../etc" =
      Except.error (Err.invalidMountPath "/plugin/mounts/../../etc") :=
  (C3_invalid_path_amended "/plugin" "/plugin/mounts/../../etc").2 "../../etc"
    rfl (by decide)

end AwsPd
